import Mathlib

/-!
Verification model of a Monkey-family tree-walking interpreter (token model,
AST, runtime objects, lexically chained environments, evaluator, Pratt parser).

Conventions of the embedding:
* Runtime `i64` values are `Int`s kept in the i64 range by the interpreter's
  own arithmetic: `+ - *` and unary negation wrap two's-complement via
  `wrap_i64` (the release-profile behavior of the host; debug builds panic at
  exactly the points where `wrap_i64` is not the identity, so every theorem
  below that asserts an arithmetic result restricts itself to the overflow-free
  domain on which both profiles agree). Division panics — in both profiles —
  on a zero divisor and on `i64::MIN / -1`, modelled by the `Res.panic`
  outcome.
* `&mut Environment` parameters become explicit state passing: a function that
  mutates its environment returns the updated `Environment` alongside its value.
* Rust panics (`todo!()`, integer division by zero, out-of-bounds indexing) are
  the `Res.panic` outcome; recursion is bounded by an explicit fuel parameter
  and exhausted fuel is the separate outcome `Res.out`, so `Res.ok` results
  coincide with the values of terminating host runs.
* `HashMap<String, Object>` is modelled as an association list with
  insert-replaces-existing-key semantics (`store_insert` / `store_get`).
-/

abbrev Str := String

/-- Token kinds, from token.rs (the source spells ASTERISK as `ASTERICK`). -/
inductive TokenType where
  | ILLEGAL
  | EOF
  | IDENT
  | INT
  | ASSIGN
  | PLUS
  | MINUS
  | BANG
  | ASTERICK
  | SLASH
  | EQ
  | NEQ
  | LT
  | GT
  | TRUE
  | FALSE
  | IF
  | ELSE
  | RETURN
  | COMMA
  | SEMICOLON
  | LPAREN
  | RPAREN
  | LBRACE
  | RBRACE
  | FUNCTION
  | LET
  | UNDEFINED
  | STRING
  deriving DecidableEq, BEq

/-- A token: kind plus literal text, from token.rs. -/
structure Token where
  type_ : TokenType
  literal : Str
  deriving DecidableEq

/-- Identifier AST node (non-recursive), from ast.rs. -/
structure Identifier where
  token : Token
  value : Str
  deriving DecidableEq

/-- Integer literal AST node; `value` is the source's i64, modelled as Int. -/
structure IntegerLiteral where
  token : Token
  value : Int
  deriving DecidableEq

/-- Boolean literal AST node, from ast.rs. -/
structure Boolean where
  token : Token
  value : Bool
  deriving DecidableEq

/-- String literal AST node, from ast.rs. -/
structure StringLiteral where
  token : Token
  value : Str
  deriving DecidableEq

mutual

/-- Statement variants, from ast.rs. -/
inductive Statement where
  | LetStatement (s : LetStatement)
  | ReturnStatement (s : ReturnStatement)
  | ExpressionStatement (s : ExpressionStatement)
  | BlockStatement (s : BlockStatement)

/-- `let` statement: optional name and optional value, as in ast.rs. -/
inductive LetStatement where
  | mk (token : Token) (name : Option Identifier) (value : Option Expression)

/-- `return` statement with optional value, as in ast.rs. -/
inductive ReturnStatement where
  | mk (token : Token) (value : Option Expression)

/-- Expression statement with optional expression, as in ast.rs. -/
inductive ExpressionStatement where
  | mk (token : Token) (expr : Option Expression)

/-- Block statement: a token and an ordered list of statements, as in ast.rs. -/
inductive BlockStatement where
  | mk (token : Token) (statements : List Statement)

/-- Expression variants, from ast.rs. -/
inductive Expression where
  | Identifier (x : Identifier)
  | IntegerLiteral (x : IntegerLiteral)
  | PrefixExpression (x : PrefixExpression)
  | InfixExpression (x : InfixExpression)
  | Boolean (x : Boolean)
  | IfExpression (x : IfExpression)
  | FunctionLiteral (x : FunctionLiteral)
  | CallExpression (x : CallExpression)
  | StringLiteral (x : StringLiteral)

/-- Prefix expression node (`!x`, `-x`), operator kept as its literal string. -/
inductive PrefixExpression where
  | mk (token : Token) (operator : Str) (right : Option Expression)

/-- Infix expression node, operator kept as its literal string. -/
inductive InfixExpression where
  | mk (token : Token) (left : Option Expression) (operator : Str) (right : Option Expression)

/-- If expression: condition, consequence and alternative are optional, as in ast.rs
    (consequence/alternative are `Statement`s expected to be block statements). -/
inductive IfExpression where
  | mk (token : Token) (cond : Option Expression) (consequence : Option Statement)
      (alternative : Option Statement)

/-- Function literal: optional parameter list, optional body statement. -/
inductive FunctionLiteral where
  | mk (token : Token) (parameters : Option (List Expression)) (body : Option Statement)

/-- Call expression: optional callee and optional argument list. -/
inductive CallExpression where
  | mk (token : Token) (func : Option Expression) (args : Option (List Expression))

end

/-- A program is an ordered list of statements (ast.rs: `type Program = Vec<Statement>`). -/
abbrev Program := List Statement

mutual

/-- Runtime values, from object.rs. -/
inductive Object where
  | Integer (i : Int)
  | Boolean (b : Bool)
  | Null
  | Return (o : Object)
  | Error (msg : Str)
  | Function (f : Function)
  | String (s : Str)

/-- Function object: parameters, body block, captured environment, from object.rs. -/
inductive Function where
  | mk (parameters : List Expression) (body : BlockStatement) (env : Environment)

/-- Environment: a local store plus an optional enclosing environment, from object.rs.
    The HashMap store is modelled as an association list (see `store_insert`). -/
inductive Environment where
  | mk (store : List (Str × Object)) (outer : Option Environment)

end

/-- Type tag of an object, from object.rs `Object::type_`. -/
def Object.type_ : Object → Str
  | .Integer _ => "INTEGER_OBJ"
  | .Boolean _ => "BOOLEAN_OBJ"
  | .Null => "NULL"
  | .Return _ => "RETURN_VALUE_OBJ"
  | .Error _ => "ERROR"
  | .Function _ => "FUNCTION"
  | .String _ => "STRING"

/-- Whether an object is the `Null` variant (the derived `PartialEq` comparison
    `v != Object::Null` in eval.rs tests exactly this). -/
def Object.is_null : Object → Bool
  | .Null => true
  | _ => false

/-- Whether an object is a `Return` wrapper. -/
def Object.is_return : Object → Bool
  | .Return _ => true
  | _ => false

/-- HashMap::get on the association-list model of the store. -/
def store_get : List (Str × Object) → Str → Option Object
  | [], _ => none
  | (k, v) :: rest, name => if k = name then some v else store_get rest name

/-- HashMap::insert on the association-list model: replaces the binding of an
    existing key, otherwise appends. -/
def store_insert : List (Str × Object) → Str → Object → List (Str × Object)
  | [], name, obj => [(name, obj)]
  | (k, v) :: rest, name, obj =>
    if k = name then (name, obj) :: rest else (k, v) :: store_insert rest name obj

/-- The local store of an environment. -/
def Environment.store : Environment → List (Str × Object)
  | .mk s _ => s

/-- The enclosing environment, when any. -/
def Environment.outer : Environment → Option Environment
  | .mk _ o => o

/-- Environment::new — empty root scope. -/
def Environment.new : Environment := .mk [] none

/-- Environment::new_enclosed — fresh empty scope whose parent is `envir`.
    (The source takes `&mut self` but never uses it.) -/
def Environment.new_enclosed (_self : Environment) (envir : Environment) : Environment :=
  .mk [] (some envir)

/-- Environment::get — local store first, then the enclosing chain. -/
def Environment.get : Environment → Str → Option Object
  | .mk store outer, name =>
    match store_get store name with
    | some c => some c
    | none =>
      match outer with
      | some p => Environment.get p name
      | none => none

/-- Environment::set — inserts (or overwrites) in the local store only and
    returns the stored value (state-passing rendering of `&mut self`). -/
def Environment.set : Environment → Str → Object → Object × Environment
  | .mk store outer, name, obj => (obj, .mk (store_insert store name obj) outer)

/-- Whether some environment of the chain (the environment itself or an
    ancestor) has a local binding for `name`. -/
def bindsIn : Environment → Str → Bool
  | .mk store outer, name =>
    (store_get store name).isSome ||
      (match outer with
       | some p => bindsIn p name
       | none => false)

/-- Outcome of running a piece of the interpreter: a value, a host panic
    (division by zero, `todo!()`, index out of bounds), or exhausted fuel. -/
inductive Res (α : Type) where
  | ok (a : α)
  | panic (msg : Str)
  | out

/-- is_truthy, from eval.rs: only `Boolean(true)` is truthy. -/
def is_truthy : Object → Bool
  | .Boolean true => true
  | .Boolean false => false
  | _ => false

/-- new_error, from eval.rs. -/
def new_error (format : Str) : Object := .Error format

/-- is_error, from eval.rs: compares the type tag with "ERROR". -/
def is_error (obj : Object) : Bool := obj.type_ == "ERROR"

/-- eval_bang_oper, from eval.rs. -/
def eval_bang_oper : Object → Object
  | .Boolean true => .Boolean false
  | .Boolean false => .Boolean true
  | .Null => .Boolean true
  | _ => .Boolean false

/-- Two's-complement reduction into the i64 range [-2^63, 2^63): the written
    numerals are 2^63 and 2^64. This is release-profile Rust arithmetic
    (overflow wraps); a debug build panics at exactly the inputs on which
    `wrap_i64` is not the identity, and no theorem below asserts an arithmetic
    result at such an input. -/
def wrap_i64 (x : Int) : Int :=
  (x + 9223372036854775808) % 18446744073709551616 - 9223372036854775808

/-- eval_minus_oper, from eval.rs: i64 negation of the payload (wrapping, see
    `wrap_i64`: at `i64::MIN` the host wraps in release and panics in debug);
    every other operand produces `Error("Don't know yet")`. -/
def eval_minus_oper : Object → Object
  | .Integer x => .Integer (wrap_i64 (-x))
  | _ => .Error "Don't know yet"

/-- eval_prefix, from eval.rs: dispatch on the operator literal. -/
def eval_prefix (oper : Str) (right : Object) : Object :=
  match oper with
  | "!" => eval_bang_oper right
  | "-" => eval_minus_oper right
  | _ => .Error ("unknown operator: " ++ oper ++ " " ++ right.type_)

/-- eval_integer_infix, from eval.rs. Each arm extracts the i64 payloads
    (defaulting to 0 for the unreachable non-integer patterns, as the source's
    `let mut leftval = 0; match ...` does). `+ - *` are wrapping i64
    arithmetic (see `wrap_i64`). Division is the host's i64 `/`: it panics —
    in every build profile — when the divisor is zero and at
    `i64::MIN / -1` (the quotient 2^63 is unrepresentable), and otherwise
    truncates toward zero (`Int.tdiv`; the quotient of any other pair of
    in-range operands is in range, so no wrap is applied, as in the host). -/
def eval_integer_infix (oper : Str) (left right : Object) : Res Object :=
  let leftval : Int := match left with | .Integer x => x | _ => 0
  let rightval : Int := match right with | .Integer x => x | _ => 0
  match oper with
  | "+" => .ok (.Integer (wrap_i64 (leftval + rightval)))
  | "-" => .ok (.Integer (wrap_i64 (leftval - rightval)))
  | "*" => .ok (.Integer (wrap_i64 (leftval * rightval)))
  | "/" =>
    if rightval == 0 then .panic "attempt to divide by zero"
    else if leftval == -9223372036854775808 && rightval == -1 then
      .panic "attempt to divide with overflow"
    else .ok (.Integer (Int.tdiv leftval rightval))
  | "<" => .ok (.Boolean (decide (leftval < rightval)))
  | ">" => .ok (.Boolean (decide (rightval < leftval)))
  | "==" => .ok (.Boolean (leftval == rightval))
  | "!=" => .ok (.Boolean (!(leftval == rightval)))
  | _ => .ok (.Error ("unknown operator: " ++ left.type_ ++ " " ++ oper ++ " " ++ right.type_))

/-- eval_string_infix, from eval.rs: only `+` (concatenation) is defined; the
    non-string match arms are the source's `todo!()` panics (unreachable from
    `eval_infix_expr`, which checks both type tags first). -/
def eval_string_infix (oper : Str) (left right : Object) : Res Object :=
  if oper != "+" then
    .ok (new_error ("unknown operator: " ++ left.type_ ++ " " ++ oper ++ " " ++ right.type_))
  else
    match left with
    | .String left_val =>
      match right with
      | .String right_val => .ok (.String (left_val ++ right_val))
      | _ => .panic "not yet implemented"
    | _ => .panic "not yet implemented"

/-- eval_infix_expr, from eval.rs: dispatch on the two type tags. -/
def eval_infix_expr (oper : Str) (left right : Object) : Res Object :=
  if left.type_ == "INTEGER_OBJ" && right.type_ == "INTEGER_OBJ" then
    eval_integer_infix oper left right
  else if left.type_ == "STRING" && right.type_ == "STRING" then
    eval_string_infix oper left right
  else
    .ok (.Error ("type mismatch: " ++ left.type_ ++ " " ++ right.type_))

/-- unwrap_return_value, from eval.rs: strips exactly one `Return` layer and
    leaves every other variant unchanged. -/
def unwrap_return_value (obj : Object) : Object :=
  match obj with
  | .Return x => x
  | _ => obj

/-- eval_identifier, from eval.rs. -/
def eval_identifier (ident : Identifier) (env : Environment) : Object :=
  match env.get ident.value with
  | some x => x
  | none => .Error ("identifier not found: " ++ ident.value)

/-- The enumerate-loop of extended_func_env: binds each parameter name to the
    positionally matching argument. `args[index]` out of range and the
    `todo!()` arms for non-identifier parameters are host panics. -/
def extended_func_env_loop : List Expression → Nat → List Object → Environment → Res Environment
  | [], _, _, envex => .ok envex
  | param :: rest, index, args, envex =>
    match param with
    | .Identifier x =>
      match args.get? index with
      | some a => extended_func_env_loop rest (index + 1) args (envex.set x.value a).2
      | none => .panic "index out of bounds"
    | _ => .panic "not yet implemented"

/-- extended_func_env, from eval.rs: a fresh scope enclosed by the function's
    captured environment (`new_enclosed` ignores the `&mut self` receiver), with
    the parameters bound; a non-function argument falls through to a fresh
    root environment. -/
def extended_func_env (fn_ : Object) (args : List Object) (env : Environment) : Res Environment :=
  match fn_ with
  | .Function (.mk parameters _body fenv) =>
    extended_func_env_loop parameters 0 args (env.new_enclosed fenv)
  | _ => .ok Environment.new

mutual

/-- eval_prog, from eval.rs. The source initializes `let result = Object::Null`
    and then rebinds `let result = eval(statement, env)` INSIDE the loop: the
    inner binding shadows the outer one, so after a loop that never hits a
    `Return`/`Error` the function returns the outer, untouched `Null`. -/
def eval_prog : Nat → Program → Environment → Res (Object × Environment)
  | 0, _, _ => .out
  | fuel + 1, prog, env =>
    match prog with
    | [] => .ok (Object.Null, env)
    | statement :: rest =>
      match eval fuel statement env with
      | .ok (some (Object.Return x), env') => .ok (x, env')
      | .ok (some (Object.Error m), env') => .ok (Object.Error m, env')
      | .ok (_, env') => eval_prog fuel rest env'
      | .panic m => .panic m
      | .out => .out

/-- eval (statement dispatch), from eval.rs. -/
def eval : Nat → Statement → Environment → Res (Option Object × Environment)
  | 0, _, _ => .out
  | fuel + 1, state, env =>
    match state with
    | .LetStatement (.mk _token name value) =>
      match (match value with
             | some x => eval_expr fuel x env
             | none => .ok (Object.Error "Could not evaluate let statement expression", env)) with
      | .ok (res, env₁) =>
        if is_error res then .ok (some res, env₁)
        else
          match name with
          | some x => .ok (some res, (env₁.set x.value res).2)
          | none => .ok (some (Object.Error "Could not add identifier to environment"), env₁)
      | .panic m => .panic m
      | .out => .out
    | .ReturnStatement x =>
      match eval_ret fuel x env with
      | .ok (res, env₁) => .ok (some res, env₁)
      | .panic m => .panic m
      | .out => .out
    | .ExpressionStatement x =>
      match eval_expression_stmt fuel x env with
      | .ok (res, env₁) => .ok (some res, env₁)
      | .panic m => .panic m
      | .out => .out
    | .BlockStatement x =>
      match eval_block fuel x env with
      | .ok (res, env₁) => .ok (some res, env₁)
      | .panic m => .panic m
      | .out => .out

/-- eval_ret, from eval.rs: with a value, wrap its evaluation in `Return`;
    with no value, return the plain `Null` (no wrapping). -/
def eval_ret : Nat → ReturnStatement → Environment → Res (Object × Environment)
  | 0, _, _ => .out
  | fuel + 1, .mk _token value, env =>
    match value with
    | some x =>
      match eval_expr fuel x env with
      | .ok (val, env₁) => .ok (Object.Return val, env₁)
      | .panic m => .panic m
      | .out => .out
    | none => .ok (Object.Null, env)

/-- eval_block, from eval.rs (entry: delegates to the statement loop). -/
def eval_block : Nat → BlockStatement → Environment → Res (Object × Environment)
  | 0, _, _ => .out
  | fuel + 1, .mk _token statements, env => eval_block_stmts fuel statements env

/-- The for-loop of eval_block. As in eval_prog, `let val = eval(statement, env)`
    inside the loop shadows the outer `let val = Object::Null`, so when no
    statement yields a `Return`/`Error` value the loop falls through and the
    function returns the outer `Null`. -/
def eval_block_stmts : Nat → List Statement → Environment → Res (Object × Environment)
  | 0, _, _ => .out
  | fuel + 1, stmts, env =>
    match stmts with
    | [] => .ok (Object.Null, env)
    | statement :: rest =>
      match eval fuel statement env with
      | .ok (valOpt, env₁) =>
        let v : Object := match valOpt with | some s => s | none => Object.Null
        if (!v.is_null) && (v.type_ == "RETURN_VALUE_OBJ" || v.type_ == "ERROR") then
          .ok (v, env₁)
        else
          eval_block_stmts fuel rest env₁
      | .panic m => .panic m
      | .out => .out

/-- eval_expression_stmt, from eval.rs. -/
def eval_expression_stmt : Nat → ExpressionStatement → Environment → Res (Object × Environment)
  | 0, _, _ => .out
  | fuel + 1, .mk _token expr, env =>
    match expr with
    | some x => eval_expr fuel x env
    | none => .ok (Object.Null, env)

/-- eval_expr, from eval.rs. -/
def eval_expr : Nat → Expression → Environment → Res (Object × Environment)
  | 0, _, _ => .out
  | fuel + 1, expr, env =>
    match expr with
    | .Identifier x => .ok ( eval_identifier x env, env)
    | .IntegerLiteral x => .ok (Object.Integer x.value, env)
    | .PrefixExpression (.mk _tok operator right) =>
      match (match right with
             | some x => eval_expr fuel x env
             | none => .ok (Object.Null, env)) with
      | .ok (rightv, env₁) =>
        if is_error rightv then .ok (rightv, env₁)
        else .ok ( eval_prefix operator rightv, env₁)
      | .panic m => .panic m
      | .out => .out
    | .InfixExpression (.mk _tok left operator right) =>
      match (match left with
             | some l => eval_expr fuel l env
             | none => .ok (Object.Null, env)) with
      | .ok (leftv, env₁) =>
        if is_error leftv then .ok (leftv, env₁)
        else
          match (match right with
                 | some r => eval_expr fuel r env₁
                 | none => .ok (Object.Null, env₁)) with
          | .ok (rightv, env₂) =>
            if is_error rightv then .ok (rightv, env₂)
            else
              match eval_infix_expr operator leftv rightv with
              | .ok o => .ok (o, env₂)
              | .panic m => .panic m
              | .out => .out
          | .panic m => .panic m
          | .out => .out
      | .panic m => .panic m
      | .out => .out
    | .Boolean x => .ok (Object.Boolean x.value, env)
    | .IfExpression x => eval_if_expr fuel x env
    | .FunctionLiteral (.mk _tok parameters body) =>
      let param : List Expression := match parameters with | some x => x | none => []
      match body with
      | some b =>
        match b with
        | .BlockStatement blk => .ok (Object.Function (.mk param blk env), env)
        | _ => .ok (Object.Error "not a block statement", env)
      | none => .ok (Object.Error "expected statement but got something else", env)
    | .CallExpression (.mk _tok func args) =>
      match (match func with
             | some x => eval_expr fuel x env
             | none => .ok (Object.Error "expected function got something else", env)) with
      | .ok (function, env₁) =>
        if is_error function then .ok (function, env₁)
        else
          let arg : List Expression := match args with | some x => x | none => []
          match eval_exprs fuel arg env₁ with
          | .ok argvals =>
            match argvals with
            | [a] =>
              if is_error a then .ok (a, env₁)
              else
                match apply_function fuel function argvals env₁ with
                | .ok o => .ok (o, env₁)
                | .panic m => .panic m
                | .out => .out
            | _ =>
              match apply_function fuel function argvals env₁ with
              | .ok o => .ok (o, env₁)
              | .panic m => .panic m
              | .out => .out
          | .panic m => .panic m
          | .out => .out
      | .panic m => .panic m
      | .out => .out
    | .StringLiteral x => .ok (Object.String x.value, env)

/-- eval_exprs, from eval.rs: every argument is evaluated against a fresh clone
    of the caller's environment (`&mut env.clone()`), whose final state is then
    dropped; the first error becomes a single-element result list. -/
def eval_exprs : Nat → List Expression → Environment → Res (List Object)
  | 0, _, _ => .out
  | fuel + 1, exps, env =>
    match exps with
    | [] => .ok []
    | exp :: rest =>
      match eval_expr fuel exp env with
      | .ok (evaluated, _) =>
        if is_error evaluated then .ok [evaluated]
        else
          match eval_exprs fuel rest env with
          | .ok result => .ok (evaluated :: result)
          | .panic m => .panic m
          | .out => .out
      | .panic m => .panic m
      | .out => .out

/-- eval_if_expr, from eval.rs. -/
def eval_if_expr : Nat → IfExpression → Environment → Res (Object × Environment)
  | 0, _, _ => .out
  | fuel + 1, .mk _tok cond conseq alt, env =>
    match (match cond with
           | some c => eval_expr fuel c env
           | none => .ok (Object.Null, env)) with
    | .ok (condv, env₁) =>
      if is_error condv then .ok (condv, env₁)
      else if is_truthy condv then
        match conseq with
        | some c =>
          match eval fuel c env₁ with
          | .ok (some cv, env₂) => .ok (cv, env₂)
          | .ok (none, env₂) =>
            .ok (Object.Error "Could not evaluate consequence part of if expression", env₂)
          | .panic m => .panic m
          | .out => .out
        | none => .ok (Object.Null, env₁)
      else
        match alt with
        | some a =>
          match eval fuel a env₁ with
          | .ok (some e, env₂) => .ok (e, env₂)
          | .ok (none, env₂) =>
            .ok (Object.Error "could not evaluated alternative part of the if expression", env₂)
          | .panic m => .panic m
          | .out => .out
        | none => .ok (Object.Null, env₁)
    | .panic m => .panic m
    | .out => .out

/-- apply_function, from eval.rs: extend the captured environment, evaluate the
    body block there, unwrap one `Return` layer; a non-function callee is the
    "not a function" error. The caller's environment is not touched. -/
def apply_function : Nat → Object → List Object → Environment → Res Object
  | 0, _, _, _ => .out
  | fuel + 1, fn_, args, env =>
    match fn_ with
    | .Function (.mk _params body _fenv) =>
      match extended_func_env fn_ args env with
      | .ok extended_env =>
        match eval_block fuel body extended_env with
        | .ok (evaluated, _) => .ok (unwrap_return_value evaluated)
        | .panic m => .panic m
        | .out => .out
      | .panic m => .panic m
      | .out => .out
    | _ => .ok (Object.Error ("not a function: " ++ fn_.type_))

end

/-! Parser model, from parser.rs. The lexer is modelled by its output contract
(spec §4.1): a stream of tokens; at end of input `next_token` yields `EOF`
(with the literal `"\0"`) and stays there. The parser's dispatch tables
(`prefix_fns`, `infix_fns`, `precedence`), filled once in `Parser::new` and
never changed, are modelled as the constant lookup functions below; dispatch
itself compares the looked-up handler-name strings, as the source's
`match x { PARSE_IDENTIFIER => ... }` does. -/

def PARSE_IDENTIFIER : Str := "parse_identifier"

def PARSE_INTEGER_LITERAL : Str := "parse_integer_literal"

def PARSE_PREFIX_EXPR : Str := "parse_prefix_expr"

def PARSE_INFIX_EXPR : Str := "parse_infix_expr"

def PARSE_BOOLEAN : Str := "parse_boolean_expr"

def PARSE_GROUP : Str := "parse_group_expr"

def PARSE_IF : Str := "parse_if_expr"

def PARSE_FUNCTION : Str := "parse_function_literal"

def PARSE_CALL : Str := "parse_call"

def PARSE_STRING : Str := "parse_string"

def LOWEST : Int := 0

def EQUALS : Int := 1

def LESSGREATER : Int := 2

def SUM : Int := 3

def PRODUCT : Int := 4

def PREFIX : Int := 5

def CALL : Int := 6

/-- The parser's precedence table (filled in Parser::new). -/
def precedence : TokenType → Option Int
  | .EQ => some EQUALS
  | .NEQ => some EQUALS
  | .LT => some LESSGREATER
  | .GT => some LESSGREATER
  | .PLUS => some SUM
  | .MINUS => some SUM
  | .SLASH => some PRODUCT
  | .ASTERICK => some PRODUCT
  | .LPAREN => some CALL
  | _ => none

/-- The prefix dispatch table (register_prefix calls in Parser::new). -/
def prefix_fns : TokenType → Option Str
  | .IDENT => some PARSE_IDENTIFIER
  | .INT => some PARSE_INTEGER_LITERAL
  | .BANG => some PARSE_PREFIX_EXPR
  | .MINUS => some PARSE_PREFIX_EXPR
  | .TRUE => some PARSE_BOOLEAN
  | .FALSE => some PARSE_BOOLEAN
  | .LPAREN => some PARSE_GROUP
  | .IF => some PARSE_IF
  | .FUNCTION => some PARSE_FUNCTION
  | .STRING => some PARSE_STRING
  | _ => none

/-- The infix dispatch table (register_infix calls in Parser::new). -/
def infix_fns : TokenType → Option Str
  | .PLUS => some PARSE_INFIX_EXPR
  | .MINUS => some PARSE_INFIX_EXPR
  | .SLASH => some PARSE_INFIX_EXPR
  | .ASTERICK => some PARSE_INFIX_EXPR
  | .EQ => some PARSE_INFIX_EXPR
  | .NEQ => some PARSE_INFIX_EXPR
  | .LT => some PARSE_INFIX_EXPR
  | .GT => some PARSE_INFIX_EXPR
  | .LPAREN => some PARSE_CALL
  | _ => none

/-- The lexer, modelled by its output token stream. -/
structure Lexer where
  tokens : List Token

/-- Lexer::next_token as the parser consumes it: pops the next token of the
    stream; at the end of input returns `EOF` forever. -/
def Lexer.next_token : Lexer → Token × Lexer
  | ⟨[]⟩ => (⟨.EOF, "\u0000"⟩, ⟨[]⟩)
  | ⟨t :: ts⟩ => (t, ⟨ts⟩)

/-- Parser state: lexer, two tokens of lookahead, error list. -/
structure Parser where
  lex : Lexer
  cur_token : Token
  peek_token : Token
  errors : List Str

/-- Parser::next_token: shift peek into cur, refill peek from the lexer. -/
def Parser.next_token (p : Parser) : Parser :=
  let (t, lex') := p.lex.next_token
  { lex := lex', cur_token := p.peek_token, peek_token := t, errors := p.errors }

/-- Parser::new: both lookahead tokens start as UNDEFINED, then two
    next_token calls load them. -/
def Parser.new (l : Lexer) : Parser :=
  (Parser.next_token (Parser.next_token
    { lex := l, cur_token := ⟨.UNDEFINED, ""⟩, peek_token := ⟨.UNDEFINED, ""⟩, errors := [] }))

/-- Display form of a token type (token.rs `impl fmt::Display`); note ASTERICK
    is displayed as ASTERISK. -/
def display_token_type : TokenType → Str
  | .ILLEGAL => "TokenType: ILLEGAL"
  | .EOF => "TokenType: EOF"
  | .IDENT => "TokenType: IDENT"
  | .INT => "TokenType: INT"
  | .ASSIGN => "TokenType: ASSIGN"
  | .PLUS => "TokenType: PLUS"
  | .MINUS => "TokenType: MINUS"
  | .BANG => "TokenType: BANG"
  | .ASTERICK => "TokenType: ASTERISK"
  | .SLASH => "TokenType: SLASH"
  | .EQ => "TokenType: EQ"
  | .NEQ => "TokenType: NEQ"
  | .LT => "TokenType: LT"
  | .GT => "TokenType: GT"
  | .TRUE => "TokenType: TRUE"
  | .FALSE => "TokenType: FALSE"
  | .IF => "TokenType: IF"
  | .ELSE => "TokenType: ELSE"
  | .RETURN => "TokenType: RETURN"
  | .COMMA => "TokenType: COMMA"
  | .SEMICOLON => "TokenType: SEMICOLON"
  | .LPAREN => "TokenType: LPAREN"
  | .RPAREN => "TokenType: RPAREN"
  | .LBRACE => "TokenType: LBRACE"
  | .RBRACE => "TokenType: RBRACE"
  | .FUNCTION => "TokenType: FUNCTION"
  | .LET => "TokenType: LET"
  | .UNDEFINED => "TokenType: UNDEFINED"
  | .STRING => "TokenType: STRING"

/-- cur_token_is, from parser.rs. -/
def cur_token_is (p : Parser) (t : TokenType) : Bool := p.cur_token.type_ == t

/-- peek_token_is, from parser.rs. -/
def peek_token_is (p : Parser) (t : TokenType) : Bool := p.peek_token.type_ == t

/-- peek_error, from parser.rs: records "expected next token to be X, got Y". -/
def peek_error (p : Parser) (t : TokenType) : Parser :=
  { lex := p.lex, cur_token := p.cur_token, peek_token := p.peek_token,
    errors := p.errors ++
      ["expected next token to be " ++ display_token_type t ++ ", got " ++
        display_token_type p.peek_token.type_] }

/-- expect_peek, from parser.rs: advance on match, otherwise record an error. -/
def expect_peek (p : Parser) (t : TokenType) : Bool × Parser :=
  if peek_token_is p t then (true, p.next_token) else (false, peek_error p t)

/-- peek_precedence, from parser.rs: table lookup on the peek token, LOWEST on miss. -/
def peek_precedence (p : Parser) : Int :=
  match precedence p.peek_token.type_ with
  | some prc => prc
  | none => LOWEST

/-- cur_precedence, from parser.rs. -/
def cur_precedence (p : Parser) : Int :=
  match precedence p.cur_token.type_ with
  | some prc => prc
  | none => LOWEST

/-- Rust `<i64 as FromStr>::from_str` on a literal: optional sign, at least one
    digit, all digits, result within the i64 range; the error strings are the
    host's ParseIntError messages. -/
def parse_i64 (s : Str) : Except Str Int :=
  let chars := s.data
  let sign : Int := match chars with
    | '-' :: _ => -1
    | _ => 1
  let digits : List Char := match chars with
    | '+' :: rest => rest
    | '-' :: rest => rest
    | l => l
  if chars.isEmpty then .error "cannot parse integer from empty string"
  else if digits.isEmpty then .error "invalid digit found in string"
  else if digits.all (fun c => c.isDigit) then
    let mag : Nat := digits.foldl (fun acc c => acc * 10 + (c.toNat - 48)) 0
    let v : Int := sign * (mag : Int)
    if v < -(2 ^ 63) then .error "number too small to fit in target type"
    else if v > 2 ^ 63 - 1 then .error "number too large to fit in target type"
    else .ok v
  else .error "invalid digit found in string"

/-- parse_identifier, from parser.rs. -/
def parse_identifier (p : Parser) : Option Expression × Parser :=
  (some (.Identifier ⟨p.cur_token, p.cur_token.literal⟩), p)

/-- parse_integer_literal, from parser.rs: parse the literal as i64, recording
    an error (and producing no node) on failure. -/
def parse_integer_literal (p : Parser) : Option Expression × Parser :=
  match parse_i64 p.cur_token.literal with
  | .ok i => (some (.IntegerLiteral ⟨⟨p.cur_token.type_, p.cur_token.literal⟩, i⟩), p)
  | .error err =>
    (none,
      { lex := p.lex, cur_token := p.cur_token, peek_token := p.peek_token,
        errors := p.errors ++
          ["could not parse " ++ p.cur_token.literal ++ " as integer. " ++ err] })

/-- parse_boolean, from parser.rs. -/
def parse_boolean (p : Parser) : Option Expression × Parser :=
  (some (.Boolean ⟨p.cur_token, cur_token_is p .TRUE⟩), p)

/-- parse_string, from parser.rs. -/
def parse_string (p : Parser) : Option Expression × Parser :=
  (some (.StringLiteral ⟨p.cur_token, p.cur_token.literal⟩), p)

mutual

/-- parse_statement, from parser.rs: dispatch on the current token kind. -/
def parse_statement : Nat → Parser → Res (Option Statement × Parser)
  | 0, _ => .out
  | fuel + 1, p =>
    match p.cur_token.type_ with
    | .LET => parse_let_statement fuel p
    | .RETURN => parse_return_statement fuel p
    | _ => parse_expression_statement fuel p

/-- parse_let_statement, from parser.rs. -/
def parse_let_statement : Nat → Parser → Res (Option Statement × Parser)
  | 0, _ => .out
  | fuel + 1, p =>
    let let_token := p.cur_token
    let (ok₁, p₁) := expect_peek p .IDENT
    if !ok₁ then .ok (none, p₁)
    else
      let name := some (Identifier.mk p₁.cur_token p₁.cur_token.literal)
      let (ok₂, p₂) := expect_peek p₁ .ASSIGN
      if !ok₂ then .ok (none, p₂)
      else
        let p₃ := p₂.next_token
        match parse_expression fuel p₃ LOWEST with
        | .ok (expr, p₄) =>
          let p₅ := if peek_token_is p₄ .SEMICOLON then p₄.next_token else p₄
          .ok (some (.LetStatement (.mk let_token name expr)), p₅)
        | .panic m => .panic m
        | .out => .out

/-- parse_return_statement, from parser.rs: with an immediate semicolon the
    value stays absent; otherwise parse an expression at LOWEST. -/
def parse_return_statement : Nat → Parser → Res (Option Statement × Parser)
  | 0, _ => .out
  | fuel + 1, p =>
    let ret_token := p.cur_token
    let p₁ := p.next_token
    if cur_token_is p₁ .SEMICOLON then .ok (some (.ReturnStatement (.mk ret_token none)), p₁)
    else
      match parse_expression fuel p₁ LOWEST with
      | .ok (right_expr, p₂) =>
        let p₃ := if peek_token_is p₂ .SEMICOLON then p₂.next_token else p₂
        .ok (some (.ReturnStatement (.mk ret_token right_expr)), p₃)
      | .panic m => .panic m
      | .out => .out

/-- parse_expression_statement, from parser.rs. Note: the expression is parsed
    at the precedence the table assigns to the CURRENT token (LOWEST only when
    the token has no entry), exactly as the source's
    `self.precedence.get(&self.cur_token.type_)` does. -/
def parse_expression_statement : Nat → Parser → Res (Option Statement × Parser)
  | 0, _ => .out
  | fuel + 1, p =>
    let stmt_token := p.cur_token
    let prec : Int :=
      match precedence p.cur_token.type_ with
      | some pr => pr
      | none => LOWEST
    match parse_expression fuel p prec with
    | .ok (st, p₁) =>
      let p₂ := if peek_token_is p₁ .SEMICOLON then p₁.next_token else p₁
      .ok (some (.ExpressionStatement (.mk stmt_token st)), p₂)
    | .panic m => .panic m
    | .out => .out

/-- parse_expression, from parser.rs: look up and run the prefix handler for
    the current token (no handler: return None — the source never calls its
    no_prefix_parse_fn_error), then run the infix loop. -/
def parse_expression : Nat → Parser → Int → Res (Option Expression × Parser)
  | 0, _, _ => .out
  | fuel + 1, p, prec =>
    match prefix_fns p.cur_token.type_ with
    | none => .ok (none, p)
    | some name =>
      if name == PARSE_IDENTIFIER then
        let (s, p₁) := parse_identifier p
        let left_expr : Option Expression :=
          match s with
          | some stmt =>
            match stmt with
            | .Identifier _ => some stmt
            | _ => none
          | none => none
        parse_expression_loop fuel p₁ prec left_expr
      else if name == PARSE_INTEGER_LITERAL then
        let (s, p₁) := parse_integer_literal p
        let left_expr : Option Expression :=
          match s with
          | some stmt =>
            match stmt with
            | .IntegerLiteral _ => some stmt
            | _ => none
          | none => none
        parse_expression_loop fuel p₁ prec left_expr
      else if name == PARSE_PREFIX_EXPR then
        match parse_prefix_expression fuel p with
        | .ok (s, p₁) => parse_expression_loop fuel p₁ prec s
        | .panic m => .panic m
        | .out => .out
      else if name == PARSE_BOOLEAN then
        let (s, p₁) := parse_boolean p
        parse_expression_loop fuel p₁ prec s
      else if name == PARSE_GROUP then
        match parse_group_expression fuel p with
        | .ok (s, p₁) => parse_expression_loop fuel p₁ prec s
        | .panic m => .panic m
        | .out => .out
      else if name == PARSE_IF then
        match parse_if_expression fuel p with
        | .ok (s, p₁) => parse_expression_loop fuel p₁ prec s
        | .panic m => .panic m
        | .out => .out
      else if name == PARSE_FUNCTION then
        match parse_function_expression fuel p with
        | .ok (s, p₁) => parse_expression_loop fuel p₁ prec s
        | .panic m => .panic m
        | .out => .out
      else if name == PARSE_STRING then
        let (s, p₁) := parse_string p
        parse_expression_loop fuel p₁ prec s
      else .ok (none, p)

/-- The while loop of parse_expression: while peek is not a semicolon and the
    caller's precedence is below peek's, run the registered infix handler
    (advancing first); a peek token with a precedence but no infix handler
    would loop doing nothing (unreachable: every token with a precedence entry
    has an infix handler). At exit, the accumulated left expression is the
    result. -/
def parse_expression_loop : Nat → Parser → Int → Option Expression → Res (Option Expression × Parser)
  | 0, _, _, _ => .out
  | fuel + 1, p, prec, left_expr =>
    if !(peek_token_is p .SEMICOLON) && decide (prec < peek_precedence p) then
      match infix_fns p.peek_token.type_ with
      | some inx =>
        if inx == PARSE_INFIX_EXPR then
          match parse_infix_expression fuel p.next_token left_expr with
          | .ok (some s, p₂) => parse_expression_loop fuel p₂ prec (some s)
          | .ok (none, p₂) => .ok (none, p₂)
          | .panic m => .panic m
          | .out => .out
        else if inx == PARSE_CALL then
          match parse_call_expression fuel p.next_token left_expr with
          | .ok (some s, p₂) => parse_expression_loop fuel p₂ prec (some s)
          | .ok (none, p₂) => .ok (none, p₂)
          | .panic m => .panic m
          | .out => .out
        else .ok (none, p)
      | none => parse_expression_loop fuel p prec left_expr
    else .ok (left_expr, p)

/-- parse_prefix_expression, from parser.rs: operator is the current literal;
    recurse at PREFIX for the operand. -/
def parse_prefix_expression : Nat → Parser → Res (Option Expression × Parser)
  | 0, _ => .out
  | fuel + 1, p =>
    let pre_token := p.cur_token
    let operator := p.cur_token.literal
    match parse_expression fuel p.next_token PREFIX with
    | .ok (s, p₂) => .ok (some (.PrefixExpression (.mk pre_token operator s)), p₂)
    | .panic m => .panic m
    | .out => .out

/-- parse_group_expression, from parser.rs: advance, parse at LOWEST, require RPAREN. -/
def parse_group_expression : Nat → Parser → Res (Option Expression × Parser)
  | 0, _ => .out
  | fuel + 1, p =>
    match parse_expression fuel p.next_token LOWEST with
    | .ok (exp, p₂) =>
      let (ok₁, p₃) := expect_peek p₂ .RPAREN
      if !ok₁ then .ok (none, p₃) else .ok (exp, p₃)
    | .panic m => .panic m
    | .out => .out

/-- parse_if_expression, from parser.rs. The node's token is hardwired to
    `Token { IF, "if" }`; a condition that fails to parse hits the source's
    `todo!()` (a host panic). -/
def parse_if_expression : Nat → Parser → Res (Option Expression × Parser)
  | 0, _ => .out
  | fuel + 1, p =>
    let if_token : Token := ⟨.IF, "if"⟩
    let (ok₁, p₁) := expect_peek p .LPAREN
    if !ok₁ then .ok (none, p₁)
    else
      let p₂ := p₁.next_token
      match parse_expression fuel p₂ LOWEST with
      | .ok (con, p₃) =>
        match con with
        | none => .panic "not yet implemented"
        | some cond =>
          let (ok₂, p₄) := expect_peek p₃ .RPAREN
          if !ok₂ then .ok (none, p₄)
          else
            let (ok₃, p₅) := expect_peek p₄ .LBRACE
            if !ok₃ then .ok (none, p₅)
            else
              match parse_block_statement fuel p₅ with
              | .ok (conseq, p₆) =>
                if peek_token_is p₆ .ELSE then
                  let p₇ := p₆.next_token
                  let (ok₄, p₈) := expect_peek p₇ .LBRACE
                  if !ok₄ then
                    .ok (some (.IfExpression (.mk if_token (some cond) conseq none)), p₈)
                  else
                    match parse_block_statement fuel p₈ with
                    | .ok (alt, p₉) =>
                      .ok (some (.IfExpression (.mk if_token (some cond) conseq alt)), p₉)
                    | .panic m => .panic m
                    | .out => .out
                else .ok (some (.IfExpression (.mk if_token (some cond) conseq none)), p₆)
              | .panic m => .panic m
              | .out => .out
      | .panic m => .panic m
      | .out => .out

/-- parse_block_statement, from parser.rs: the node's token copies the current
    token; then the statement loop runs just past the LBRACE. -/
def parse_block_statement : Nat → Parser → Res (Option Statement × Parser)
  | 0, _ => .out
  | fuel + 1, p =>
    let block_token : Token := ⟨p.cur_token.type_, p.cur_token.literal⟩
    match parse_block_loop fuel p.next_token [] with
    | .ok (stmts, p₁) => .ok (some (.BlockStatement (.mk block_token stmts)), p₁)
    | .panic m => .panic m
    | .out => .out

/-- The while loop of parse_block_statement: parse statements until RBRACE or
    EOF, pushing the parsed ones and advancing after each. -/
def parse_block_loop : Nat → Parser → List Statement → Res (List Statement × Parser)
  | 0, _, _ => .out
  | fuel + 1, p, acc =>
    if !(cur_token_is p .RBRACE) && !(cur_token_is p .EOF) then
      match parse_statement fuel p with
      | .ok (stmt, p₁) =>
        let acc' : List Statement :=
          match stmt with
          | some s => acc ++ [s]
          | none => acc
        parse_block_loop fuel p₁.next_token acc'
      | .panic m => .panic m
      | .out => .out
    else .ok (acc, p)

/-- parse_infix_expression, from parser.rs: the right-hand side is parsed at
    the operator's own precedence, EXCEPT that a `+` operator first lowers it
    by one (`if x.operator == "+" { prc = prc - 1 }`). -/
def parse_infix_expression : Nat → Parser → Option Expression → Res (Option Expression × Parser)
  | 0, _, _ => .out
  | fuel + 1, p, left =>
    let in_token := p.cur_token
    let operator := p.cur_token.literal
    let prc₀ := cur_precedence p
    let prc : Int := if operator == "+" then prc₀ - 1 else prc₀
    match parse_expression fuel p.next_token prc with
    | .ok (stmt, p₂) =>
      match stmt with
      | some s => .ok (some (.InfixExpression (.mk in_token left operator (some s))), p₂)
      | none => .ok (none, p₂)
    | .panic m => .panic m
    | .out => .out

/-- parse_function_expression, from parser.rs. -/
def parse_function_expression : Nat → Parser → Res (Option Expression × Parser)
  | 0, _ => .out
  | fuel + 1, p =>
    let fn_token := p.cur_token
    let (ok₁, p₁) := expect_peek p .LPAREN
    if !ok₁ then .ok (none, p₁)
    else
      match parse_function_parameters fuel p₁ with
      | .ok (par, p₂) =>
        let (ok₂, p₃) := expect_peek p₂ .LBRACE
        if !ok₂ then .ok (none, p₃)
        else
          match parse_block_statement fuel p₃ with
          | .ok (bod, p₄) =>
            match bod with
            | some b => .ok (some (.FunctionLiteral (.mk fn_token par (some b))), p₄)
            | none => .ok (some (.FunctionLiteral (.mk fn_token par none)), p₄)
          | .panic m => .panic m
          | .out => .out
      | .panic m => .panic m
      | .out => .out

/-- parse_function_parameters, from parser.rs: empty list on an immediate
    RPAREN; otherwise identifiers separated by commas, then require RPAREN. -/
def parse_function_parameters : Nat → Parser → Res (Option (List Expression) × Parser)
  | 0, _ => .out
  | fuel + 1, p =>
    if peek_token_is p .RPAREN then .ok (some [], p.next_token)
    else
      let p₁ := p.next_token
      let first : Expression := .Identifier ⟨p₁.cur_token, p₁.cur_token.literal⟩
      match parse_fn_params_loop fuel p₁ [first] with
      | .ok (idents, p₂) =>
        let (ok₁, p₃) := expect_peek p₂ .RPAREN
        if !ok₁ then .ok (none, p₃) else .ok (some idents, p₃)
      | .panic m => .panic m
      | .out => .out

/-- The while loop of parse_function_parameters: as long as peek is a comma,
    advance twice and push the identifier at the new current token. -/
def parse_fn_params_loop : Nat → Parser → List Expression → Res (List Expression × Parser)
  | 0, _, _ => .out
  | fuel + 1, p, acc =>
    if peek_token_is p .COMMA then
      let p₁ := p.next_token.next_token
      parse_fn_params_loop fuel p₁ (acc ++ [.Identifier ⟨p₁.cur_token, p₁.cur_token.literal⟩])
    else .ok (acc, p)

/-- parse_call_expression, from parser.rs: the node keeps the already-parsed
    callee; failed argument parsing still yields a node (with args None). -/
def parse_call_expression : Nat → Parser → Option Expression → Res (Option Expression × Parser)
  | 0, _, _ => .out
  | fuel + 1, p, func =>
    let call_token := p.cur_token
    match parse_call_arguments fuel p with
    | .ok (arguments, p₁) =>
      match arguments with
      | some args => .ok (some (.CallExpression (.mk call_token func (some args))), p₁)
      | none => .ok (some (.CallExpression (.mk call_token func none)), p₁)
    | .panic m => .panic m
    | .out => .out

/-- parse_call_arguments, from parser.rs: empty list on an immediate RPAREN;
    otherwise expressions at LOWEST separated by commas, then require RPAREN;
    any argument that fails to parse aborts with None. -/
def parse_call_arguments : Nat → Parser → Res (Option (List Expression) × Parser)
  | 0, _ => .out
  | fuel + 1, p =>
    if peek_token_is p .RPAREN then .ok (some [], p.next_token)
    else
      let p₁ := p.next_token
      match parse_expression fuel p₁ LOWEST with
      | .ok (ag, p₂) =>
        match ag with
        | none => .ok (none, p₂)
        | some a =>
          match parse_call_args_loop fuel p₂ [a] with
          | .ok (some args, p₃) =>
            let (ok₁, p₄) := expect_peek p₃ .RPAREN
            if !ok₁ then .ok (none, p₄) else .ok (some args, p₄)
          | .ok (none, p₃) => .ok (none, p₃)
          | .panic m => .panic m
          | .out => .out
      | .panic m => .panic m
      | .out => .out

/-- The while loop of parse_call_arguments: as long as peek is a comma,
    advance twice and parse the next argument at LOWEST. -/
def parse_call_args_loop : Nat → Parser → List Expression → Res (Option (List Expression) × Parser)
  | 0, _, _ => .out
  | fuel + 1, p, acc =>
    if peek_token_is p .COMMA then
      let p₁ := p.next_token.next_token
      match parse_expression fuel p₁ LOWEST with
      | .ok (ag, p₂) =>
        match ag with
        | some a => parse_call_args_loop fuel p₂ (acc ++ [a])
        | none => .ok (none, p₂)
      | .panic m => .panic m
      | .out => .out
    else .ok (some acc, p)

end

/-- parse_expression_statement as the SPEC words it (§4.2): "default →
    expression statement: parse expression at LOWEST, optionally consume
    trailing SEMICOLON". Comparison definition for the expression-statement
    claim; it differs from the source's parse_expression_statement only in
    the precedence handed to parse_expression. -/
def parse_expression_statement_spec : Nat → Parser → Res (Option Statement × Parser)
  | 0, _ => .out
  | fuel + 1, p =>
    let stmt_token := p.cur_token
    match parse_expression fuel p LOWEST with
    | .ok (st, p₁) =>
      let p₂ := if peek_token_is p₁ .SEMICOLON then p₁.next_token else p₁
      .ok (some (.ExpressionStatement (.mk stmt_token st)), p₂)
    | .panic m => .panic m
    | .out => .out

/-! Concrete programs and token streams used by the claim theorems. -/

/-- Shorthand for a token literal. -/
def tok (t : TokenType) (l : Str) : Token := ⟨t, l⟩

/-- The AST of `let a = 5; let b = a + 10; b;`. -/
def C1prog : Program :=
  [ .LetStatement (.mk (tok .LET "let") (some ⟨tok .IDENT "a", "a"⟩)
      (some (.IntegerLiteral ⟨tok .INT "5", 5⟩))),
    .LetStatement (.mk (tok .LET "let") (some ⟨tok .IDENT "b", "b"⟩)
      (some (.InfixExpression (.mk (tok .PLUS "+")
        (some (.Identifier ⟨tok .IDENT "a", "a"⟩)) "+"
        (some (.IntegerLiteral ⟨tok .INT "10", 10⟩)))))),
    .ExpressionStatement (.mk (tok .IDENT "b") (some (.Identifier ⟨tok .IDENT "b", "b"⟩))) ]

/-- The AST of the block `{ 5; }`. -/
def C2block : BlockStatement :=
  .mk (tok .LBRACE "\x7b")
    [ .ExpressionStatement (.mk (tok .INT "5") (some (.IntegerLiteral ⟨tok .INT "5", 5⟩))) ]

/-- The AST of `return if (true) { return 1; };`: a return statement whose
    operand is an if expression that itself executes a return. -/
def C3prog : Program :=
  [ .ReturnStatement (.mk (tok .RETURN "return")
      (some (.IfExpression (.mk (tok .IF "if")
        (some (.Boolean ⟨tok .TRUE "true", true⟩))
        (some (.BlockStatement (.mk (tok .LBRACE "\x7b")
          [ .ReturnStatement (.mk (tok .RETURN "return")
              (some (.IntegerLiteral ⟨tok .INT "1", 1⟩))) ])))
        none)))) ]

/-- The statement component of a parse result. -/
def parsedStmt (r : Res (Option Statement × Parser)) : Option Statement :=
  match r with
  | .ok (st, _) => st
  | _ => none

/-- The binary operators other than `+`: minus, slash, asterisk, less, greater,
    equal, not-equal, as (token kind, literal) pairs. -/
def C4ops : List (TokenType × Str) :=
  [(.MINUS, "-"), (.SLASH, "/"), (.ASTERICK, "*"), (.LT, "<"), (.GT, ">"),
   (.EQ, "=="), (.NEQ, "!=")]

/-- The token stream of `a OP b OP c;`. -/
def C4tokens (op : TokenType × Str) : List Token :=
  [⟨.IDENT, "a"⟩, ⟨op.1, op.2⟩, ⟨.IDENT, "b"⟩, ⟨op.1, op.2⟩, ⟨.IDENT, "c"⟩, ⟨.SEMICOLON, ";"⟩]

/-- The left-associated tree `(a OP b) OP c` as an expression statement. -/
def C4left (op : TokenType × Str) : Option Statement :=
  some (.ExpressionStatement (.mk ⟨.IDENT, "a"⟩ (some (.InfixExpression (.mk ⟨op.1, op.2⟩
    (some (.InfixExpression (.mk ⟨op.1, op.2⟩
      (some (.Identifier ⟨⟨.IDENT, "a"⟩, "a"⟩)) op.2
      (some (.Identifier ⟨⟨.IDENT, "b"⟩, "b"⟩)))))
    op.2
    (some (.Identifier ⟨⟨.IDENT, "c"⟩, "c"⟩)))))))

/-- The token stream of `-1 - 2;`. -/
def C5tokens : List Token :=
  [⟨.MINUS, "-"⟩, ⟨.INT, "1"⟩, ⟨.MINUS, "-"⟩, ⟨.INT, "2"⟩, ⟨.SEMICOLON, ";"⟩]

/-- A parser loaded on `5 ;` — a statement whose leading token has no
    precedence-table entry. -/
def C5pInt : Parser := Parser.new (Lexer.mk [⟨.INT, "5"⟩, ⟨.SEMICOLON, ";"⟩])

/-- The function literal `fn(x) { x; }`. -/
def C10fnlit : Expression :=
  .FunctionLiteral (.mk (tok .FUNCTION "fn") (some [.Identifier ⟨tok .IDENT "x", "x"⟩])
    (some (.BlockStatement (.mk (tok .LBRACE "\x7b")
      [ .ExpressionStatement (.mk (tok .IDENT "x")
          (some (.Identifier ⟨tok .IDENT "x", "x"⟩))) ]))))

/-- The argument expression `if (true) { let z = 99; }`: evaluating it executes
    a let statement, so it mutates whatever environment it is run in. -/
def C10argLet : Expression :=
  .IfExpression (.mk (tok .IF "if") (some (.Boolean ⟨tok .TRUE "true", true⟩))
    (some (.BlockStatement (.mk (tok .LBRACE "\x7b")
      [ .LetStatement (.mk (tok .LET "let") (some ⟨tok .IDENT "z", "z"⟩)
          (some (.IntegerLiteral ⟨tok .INT "99", 99⟩))) ])))
    none)

/-- The call `(fn(x) { x; })(if (true) { let z = 99; })`. -/
def C10call : Expression :=
  .CallExpression (.mk (tok .LPAREN "(") (some C10fnlit) (some [C10argLet]))

/-- A caller environment binding only `w`. -/
def C10env : Environment := Environment.mk [("w", Object.Integer 7)] none

/-! Helper lemmas shared by the claim theorems. -/

/-- wrap_i64 is the identity on the i64 range (the numerals are -2^63 and
    2^63): exactly the inputs where release and debug host arithmetic agree. -/
theorem wrap_i64_eq_self (x : Int) (h1 : -9223372036854775808 ≤ x)
    (h2 : x < 9223372036854775808) : wrap_i64 x = x := by
  unfold wrap_i64
  rw [Int.emod_eq_of_lt (by omega) (by omega)]
  omega

/-- Unfolding of Environment.get at a constructor. -/
theorem Environment.get_mk (store : List (Str × Object)) (outer : Option Environment)
    (name : Str) :
    Environment.get (.mk store outer) name =
      (match store_get store name with
       | some c => some c
       | none => match outer with | some p => Environment.get p name | none => none) := by
  cases outer with
  | none => simp only [Environment.get]
  | some p => simp only [Environment.get]

/-- store_get after store_insert: the inserted key reads back the new value and
    every other key is untouched. -/
theorem store_get_insert (st : List (Str × Object)) (n m : Str) (v : Object) :
    store_get (store_insert st n v) m = if m = n then some v else store_get st m := by
  induction st with
  | nil =>
    simp only [store_insert, store_get]
    by_cases h : m = n
    · simp [h]
    · simp [h, Ne.symm h]
  | cons kv rest ih =>
    obtain ⟨k, w⟩ := kv
    simp only [store_insert]
    by_cases hk : k = n
    · subst hk
      by_cases hm : m = k
      · simp [hm, store_get]
      · simp [hm, store_get, Ne.symm hm]
    · by_cases hkm : k = m
      · subst hkm
        simp [store_get, hk, Ne.symm hk, ih]
      · simp [store_get, hk, hkm, ih]

/-- Unfolding of bindsIn at a constructor. -/
theorem bindsIn_mk (st : List (Str × Object)) (outer : Option Environment) (n : Str) :
    bindsIn (.mk st outer) n =
      ((store_get st n).isSome ||
        (match outer with | some p => bindsIn p n | none => false)) := by
  cases outer with
  | none => simp only [bindsIn]
  | some p => simp only [bindsIn]

/-- When no environment of the chain binds a name, get returns none. -/
theorem env_get_none_of_bindsIn_false :
    ∀ (e : Environment) (n : Str), bindsIn e n = false → e.get n = none
  | .mk st outer, n, h => by
    rw [bindsIn_mk] at h
    rw [Bool.or_eq_false_iff] at h
    obtain ⟨h₁, h₂⟩ := h
    rw [Environment.get_mk]
    cases hsg : store_get st n with
    | some c => rw [hsg] at h₁; simp at h₁
    | none =>
      cases outer with
      | none => rfl
      | some p => exact env_get_none_of_bindsIn_false p n (by simpa using h₂)

/-- A Return-kind final value of eval_prog can only come from a top-level
    statement that itself evaluated to a doubly wrapped `Return (Return _)`. -/
theorem eval_prog_return_kind_inv :
    ∀ (fuel : Nat) (prog : Program) (env : Environment) (o : Object) (env' : Environment),
      eval_prog fuel prog env = Res.ok (o, env') → o.is_return = true →
      ∃ f s env₁ env₂, f < fuel ∧ s ∈ prog ∧
        eval f s env₁ = Res.ok (some (Object.Return o), env₂) := by
  intro fuel
  induction fuel with
  | zero =>
    intro prog env o env' h
    simp [eval_prog] at h
  | succ fuel ih =>
    intro prog env o env' h hret
    match prog with
    | [] =>
      simp [eval_prog] at h
      obtain ⟨rfl, rfl⟩ := h
      simp [Object.is_return] at hret
    | s :: rest =>
      simp only [eval_prog] at h
      cases hev : eval fuel s env with
      | ok p =>
        obtain ⟨vOpt, env₁⟩ := p
        rw [hev] at h
        cases vOpt with
        | none =>
          simp at h
          obtain ⟨f, s', e₁, e₂, hf, hmem, he⟩ := ih rest env₁ o env' h hret
          exact ⟨f, s', e₁, e₂, Nat.lt_succ_of_lt hf, List.mem_cons_of_mem _ hmem, he⟩
        | some v =>
          cases v with
          | Return x =>
            simp at h
            obtain ⟨rfl, rfl⟩ := h
            exact ⟨fuel, s, env, env₁, Nat.lt_succ_self _, List.mem_cons_self _ _, hev⟩
          | Error m =>
            simp at h
            obtain ⟨rfl, rfl⟩ := h
            simp [Object.is_return] at hret
          | Integer i =>
            simp at h
            obtain ⟨f, s', e₁, e₂, hf, hmem, he⟩ := ih rest env₁ o env' h hret
            exact ⟨f, s', e₁, e₂, Nat.lt_succ_of_lt hf, List.mem_cons_of_mem _ hmem, he⟩
          | Boolean b =>
            simp at h
            obtain ⟨f, s', e₁, e₂, hf, hmem, he⟩ := ih rest env₁ o env' h hret
            exact ⟨f, s', e₁, e₂, Nat.lt_succ_of_lt hf, List.mem_cons_of_mem _ hmem, he⟩
          | Null =>
            simp at h
            obtain ⟨f, s', e₁, e₂, hf, hmem, he⟩ := ih rest env₁ o env' h hret
            exact ⟨f, s', e₁, e₂, Nat.lt_succ_of_lt hf, List.mem_cons_of_mem _ hmem, he⟩
          | Function f =>
            simp at h
            obtain ⟨f', s', e₁, e₂, hf, hmem, he⟩ := ih rest env₁ o env' h hret
            exact ⟨f', s', e₁, e₂, Nat.lt_succ_of_lt hf, List.mem_cons_of_mem _ hmem, he⟩
          | String str =>
            simp at h
            obtain ⟨f, s', e₁, e₂, hf, hmem, he⟩ := ih rest env₁ o env' h hret
            exact ⟨f, s', e₁, e₂, Nat.lt_succ_of_lt hf, List.mem_cons_of_mem _ hmem, he⟩
      | panic m => rw [hev] at h; cases h
      | out => rw [hev] at h; cases h

/-- A Return-kind result of apply_function can only come from the function body
    evaluating to a doubly wrapped `Return (Return _)`. -/
theorem apply_function_return_kind_inv :
    ∀ (fuel : Nat) (fn_ : Object) (args : List Object) (env : Environment) (o₂ : Object),
      apply_function fuel fn_ args env = Res.ok o₂ → o₂.is_return = true →
      ∃ prms bdy fenv f envex env₂, fn_ = Object.Function (Function.mk prms bdy fenv) ∧
        f < fuel ∧ eval_block f bdy envex = Res.ok (Object.Return o₂, env₂) := by
  intro fuel fn_ args env o₂ h hret
  match fuel with
  | 0 => simp [apply_function] at h
  | fuel + 1 =>
    match fn_ with
    | .Function (.mk prms bdy fenv) =>
      simp only [apply_function] at h
      cases hext : extended_func_env (Object.Function (Function.mk prms bdy fenv)) args env with
      | ok envex =>
        rw [hext] at h
        dsimp only at h
        cases heb : eval_block fuel bdy envex with
        | ok q =>
          obtain ⟨evaluated, env₂⟩ := q
          rw [heb] at h
          simp at h
          cases evaluated with
          | Return x =>
            simp [unwrap_return_value] at h
            subst h
            exact ⟨prms, bdy, fenv, fuel, envex, env₂, rfl, Nat.lt_succ_self _, heb⟩
          | Integer i => simp [unwrap_return_value] at h; subst h; simp [Object.is_return] at hret
          | Boolean b => simp [unwrap_return_value] at h; subst h; simp [Object.is_return] at hret
          | Null => simp [unwrap_return_value] at h; subst h; simp [Object.is_return] at hret
          | Error m => simp [unwrap_return_value] at h; subst h; simp [Object.is_return] at hret
          | Function f => simp [unwrap_return_value] at h; subst h; simp [Object.is_return] at hret
          | String s => simp [unwrap_return_value] at h; subst h; simp [Object.is_return] at hret
        | panic m => rw [heb] at h; cases h
        | out => rw [heb] at h; cases h
      | panic m => rw [hext] at h; cases h
      | out => rw [hext] at h; cases h
    | .Integer i => simp [apply_function] at h; subst h; simp [Object.is_return] at hret
    | .Boolean b => simp [apply_function] at h; subst h; simp [Object.is_return] at hret
    | .Null => simp [apply_function] at h; subst h; simp [Object.is_return] at hret
    | .Return x => simp [apply_function] at h; subst h; simp [Object.is_return] at hret
    | .Error m => simp [apply_function] at h; subst h; simp [Object.is_return] at hret
    | .String s => simp [apply_function] at h; subst h; simp [Object.is_return] at hret

/-! The claim theorems. -/

/-- C1: the claim says eval_prog returns the value of the last statement
    (Null only for the empty program), and that `let a = 5; let b = a + 10; b;`
    evaluates to Integer(15). The code instead returns Null for every program
    whose statements produce no Return/Error value: the loop's `let result`
    shadows the outer `result`, which stays Null. This theorem evaluates the
    code at the claim's own example: the bindings a = 5 and b = 15 are made
    (they are in the final environment), yet the returned value is Null. -/
theorem C1_eval_prog_drops_last_value :
    eval_prog 9 C1prog Environment.new =
      Res.ok (Object.Null,
        Environment.mk [("a", Object.Integer 5), ("b", Object.Integer 15)] none) := by rfl

/-- C2: the claim says a block with no Return/Error-valued statement evaluates
    to its last statement's value. The code instead returns Null: eval_block
    has the same `let val` shadowing slip as eval_prog. Here the single
    statement `5;` evaluates to Integer 5 (second conjunct), yet the block
    `{ 5; }` evaluates to Null (first conjunct). -/
theorem C2_eval_block_drops_last_value :
    eval_block 9 C2block Environment.new = Res.ok (Object.Null, Environment.new) ∧
    eval 9 (Statement.ExpressionStatement (.mk (tok .INT "5")
        (some (.IntegerLiteral ⟨tok .INT "5", 5⟩)))) Environment.new =
      Res.ok (some (Object.Integer 5), Environment.new) := ⟨rfl, rfl⟩

/-- C3 counterexample: the program `return if (true) { return 1; };` makes
    eval_prog return the value `Return (Integer 1)` — a final value of kind
    Return, produced because the return statement's operand itself evaluated
    to a Return value, so eval_ret built the nested `Return (Return 1)` that
    the program boundary unwrapped only once. -/
theorem C3_counterexample_return_escapes :
    eval_prog 20 C3prog Environment.new =
      Res.ok (Object.Return (Object.Integer 1), Environment.new) := by rfl

/-- C3 (amended): unwrap_return_value strips exactly one Return layer and is
    the identity on non-Return values; and the final value of eval_prog (resp.
    apply_function) is of kind Return only when some top-level statement (resp.
    the function body) itself evaluated to a doubly wrapped Return (Return _),
    i.e. only when a return statement's operand evaluated to a Return value. -/
theorem C3_return_unwrapped_once :
    ∀ (fuel : Nat) (prog : Program) (env : Environment) (o : Object) (env' : Environment),
      (∀ x : Object, unwrap_return_value (Object.Return x) = x) ∧
      (o.is_return = false → unwrap_return_value o = o) ∧
      (eval_prog fuel prog env = Res.ok (o, env') → o.is_return = true →
        ∃ f s env₁ env₂, f < fuel ∧ s ∈ prog ∧
          eval f s env₁ = Res.ok (some (Object.Return o), env₂)) ∧
      (∀ fn_ args o₂, apply_function fuel fn_ args env = Res.ok o₂ → o₂.is_return = true →
        ∃ prms bdy fenv f envex env₂, fn_ = Object.Function (Function.mk prms bdy fenv) ∧
          f < fuel ∧ eval_block f bdy envex = Res.ok (Object.Return o₂, env₂)) := by
  intro fuel prog env o env'
  refine ⟨fun x => rfl, ?_, ?_, ?_⟩
  · intro h
    cases o <;> first | rfl | simp [Object.is_return] at h
  · intro h hret
    exact eval_prog_return_kind_inv fuel prog env o env' h hret
  · intro fn_ args o₂ h hret
    exact apply_function_return_kind_inv fuel fn_ args env o₂ h hret

/-- C3 witness: on the counterexample program the inner hypotheses are
    satisfied, and the theorem exhibits the nested `Return (Return 1)`
    produced by the top-level return statement. -/
theorem C3_return_unwrapped_once_witness :
    ∃ f s env₁ env₂, f < 20 ∧ s ∈ C3prog ∧
      eval f s env₁ =
        Res.ok (some (Object.Return (Object.Return (Object.Integer 1))), env₂) := by
  exact (C3_return_unwrapped_once 20 C3prog Environment.new
    (Object.Return (Object.Integer 1)) Environment.new).2.2.1 (by rfl) (by rfl)

/-- C4 counterexample: on the token stream of `a + b + c;` the parser produces
    the RIGHT-associated tree Infix(a, +, Infix(b, +, c)) — not the
    left-associated tree the claim states — because parse_infix_expression
    lowers the precedence by one before parsing the right-hand side of `+`. -/
theorem C4_counterexample_plus_right_assoc :
    parsedStmt (parse_statement 32 (Parser.new (Lexer.mk (C4tokens (TokenType.PLUS, "+"))))) =
      some (.ExpressionStatement (.mk ⟨.IDENT, "a"⟩ (some (.InfixExpression (.mk ⟨.PLUS, "+"⟩
        (some (.Identifier ⟨⟨.IDENT, "a"⟩, "a"⟩)) "+"
        (some (.InfixExpression (.mk ⟨.PLUS, "+"⟩
          (some (.Identifier ⟨⟨.IDENT, "b"⟩, "b"⟩)) "+"
          (some (.Identifier ⟨⟨.IDENT, "c"⟩, "c"⟩)))))))))) := by rfl

/-- C4 (amended): for each of the seven operators - / * < > == != (all binary
    operators except `+`), a chain `a OP b OP c;` parses to the left-associated
    tree Infix(Infix(a, OP, b), OP, c); `+` alone is right-associated (see the
    counterexample). -/
theorem C4_left_assoc_except_plus :
    ∀ op ∈ C4ops,
      parsedStmt (parse_statement 32 (Parser.new (Lexer.mk (C4tokens op)))) = C4left op := by
  intro op hop
  simp only [C4ops, List.mem_cons, List.not_mem_nil, or_false] at hop
  rcases hop with rfl | rfl | rfl | rfl | rfl | rfl | rfl
  · rfl
  · rfl
  · rfl
  · rfl
  · rfl
  · rfl
  · rfl

/-- C4 witness: the theorem at the concrete operator `-`. -/
theorem C4_left_assoc_except_plus_witness :
    parsedStmt (parse_statement 32 (Parser.new (Lexer.mk (C4tokens (TokenType.MINUS, "-"))))) =
      C4left (TokenType.MINUS, "-") := by
  exact C4_left_assoc_except_plus (TokenType.MINUS, "-") (by simp [C4ops])

/-- C5 counterexample: on the token stream of `-1 - 2;` the parser does NOT
    parse the expression statement at LOWEST: since the leading token MINUS has
    precedence-table entry SUM, the statement's expression is just the prefix
    expression -1 (first conjunct), while parsing at LOWEST — as the claim
    states, here rendered by parse_expression_statement_spec — would produce
    the claim's infix expression (-1) - 2 (second conjunct). -/
theorem C5_counterexample_minus_statement :
    parsedStmt (parse_statement 32 (Parser.new (Lexer.mk C5tokens))) =
      some (.ExpressionStatement (.mk ⟨.MINUS, "-"⟩ (some (.PrefixExpression (.mk ⟨.MINUS, "-"⟩
        "-" (some (.IntegerLiteral ⟨⟨.INT, "1"⟩, 1⟩))))))) ∧
    parsedStmt (parse_expression_statement_spec 32 (Parser.new (Lexer.mk C5tokens))) =
      some (.ExpressionStatement (.mk ⟨.MINUS, "-"⟩ (some (.InfixExpression (.mk ⟨.MINUS, "-"⟩
        (some (.PrefixExpression (.mk ⟨.MINUS, "-"⟩ "-"
          (some (.IntegerLiteral ⟨⟨.INT, "1"⟩, 1⟩)))))
        "-"
        (some (.IntegerLiteral ⟨⟨.INT, "2"⟩, 2⟩))))))) := ⟨rfl, rfl⟩

/-- C5 (amended): every statement that is neither let nor return is parsed as
    an expression statement (first conjunct); and that expression statement is
    parsed at LOWEST — i.e. the code agrees with the spec's wording, rendered
    by parse_expression_statement_spec — exactly when the statement's leading
    token has no precedence-table entry (second conjunct). For a leading token
    with an entry (such as MINUS at SUM) the source parses at that entry
    instead, which is what the counterexample exhibits. -/
theorem C5_expression_statement_precedence :
    ∀ (fuel : Nat) (p : Parser),
      (p.cur_token.type_ ≠ TokenType.LET → p.cur_token.type_ ≠ TokenType.RETURN →
        parse_statement (fuel + 1) p = parse_expression_statement fuel p) ∧
      (precedence p.cur_token.type_ = none →
        parse_expression_statement fuel p = parse_expression_statement_spec fuel p) := by
  intro fuel p
  constructor
  · intro hlet hret
    cases h : p.cur_token.type_ <;>
      first
        | exact absurd h hlet
        | exact absurd h hret
        | (simp only [parse_statement, h])
  · intro hnone
    match fuel with
    | 0 => rfl
    | fuel + 1 =>
      simp only [parse_expression_statement, parse_expression_statement_spec, hnone]

/-- C5 witness: for a statement starting with an INT token (no precedence
    entry), the source's parse_expression_statement agrees with the
    parse-at-LOWEST reading. -/
theorem C5_expression_statement_precedence_witness :
    parse_expression_statement 8 C5pInt = parse_expression_statement_spec 8 C5pInt := by
  exact (C5_expression_statement_precedence 8 C5pInt).2 (by rfl)

/-- C6: the claim says `-` on a non-integer operand yields
    Error("unknown operator: -BOOLEAN_OBJ"-style message). The code's
    eval_minus_oper instead yields the placeholder Error("Don't know yet")
    (first two conjuncts, directly and through eval_prefix). The integer half
    of the claim holds on the overflow-free domain: for every i64 operand
    other than i64::MIN — where release hosts wrap and debug hosts panic —
    negation returns the negated integer (last two conjuncts). -/
theorem C6_minus_operator_error_message :
    eval_minus_oper (Object.Boolean true) = Object.Error "Don't know yet" ∧
     eval_prefix "-" (Object.Boolean true) = Object.Error "Don't know yet" ∧
    (∀ x : Int, -(2 ^ 63) < x → x < 2 ^ 63 →
      eval_minus_oper (Object.Integer x) = Object.Integer (-x)) ∧
    (∀ x : Int, -(2 ^ 63) < x → x < 2 ^ 63 →
       eval_prefix "-" (Object.Integer x) = Object.Integer (-x)) := by
  have key : ∀ x : Int, -(2 ^ 63) < x → x < 2 ^ 63 →
      eval_minus_oper (Object.Integer x) = Object.Integer (-x) := by
    intro x h1 h2
    have hb : ((2 : Int) ^ 63) = 9223372036854775808 := by norm_num
    rw [hb] at h1 h2
    simp only [eval_minus_oper]
    rw [wrap_i64_eq_self (-x) (by omega) (by omega)]
  exact ⟨rfl, rfl, key, fun x h1 h2 => key x h1 h2⟩

/-- C6 witness: the in-range negation conjunct at the concrete operand 5. -/
theorem C6_minus_operator_error_message_witness :
    eval_minus_oper (Object.Integer 5) = Object.Integer (-5) := by
  exact C6_minus_operator_error_message.2.2.1 5 (by norm_num) (by norm_num)

/-- C7: strict truthiness of if expressions. When the condition evaluates to a
    non-error value v: is_truthy v holds exactly when v = Boolean true (so
    Boolean false, Null, every Integer, every String and every Function are
    falsy); a truthy v selects the consequence, any other v selects the
    alternative, and with no alternative the if expression is Null. -/
theorem C7_strict_truthiness (fuel : Nat) (t : Token) (c : Expression)
    (conseq alt : Option Statement) (env env₁ : Environment) (v : Object)
    (heval : eval_expr fuel c env = Res.ok (v, env₁)) (herr : is_error v = false) :
    (is_truthy v = true ↔ v = Object.Boolean true) ∧
    (is_truthy v = true →
      eval_if_expr (fuel + 1) (IfExpression.mk t (some c) conseq alt) env =
        (match conseq with
         | some cs =>
           (match eval fuel cs env₁ with
            | Res.ok (some cv, env₂) => Res.ok (cv, env₂)
            | Res.ok (none, env₂) =>
              Res.ok (Object.Error "Could not evaluate consequence part of if expression", env₂)
            | Res.panic m => Res.panic m
            | Res.out => Res.out)
         | none => Res.ok (Object.Null, env₁))) ∧
    (is_truthy v = false →
      eval_if_expr (fuel + 1) (IfExpression.mk t (some c) conseq alt) env =
        (match alt with
         | some a =>
           (match eval fuel a env₁ with
            | Res.ok (some e, env₂) => Res.ok (e, env₂)
            | Res.ok (none, env₂) =>
              Res.ok (Object.Error "could not evaluated alternative part of the if expression",
                env₂)
            | Res.panic m => Res.panic m
            | Res.out => Res.out)
         | none => Res.ok (Object.Null, env₁))) ∧
    (is_truthy v = false → alt = none →
      eval_if_expr (fuel + 1) (IfExpression.mk t (some c) conseq alt) env =
        Res.ok (Object.Null, env₁)) := by
  refine ⟨?_, ?_, ?_, ?_⟩
  · cases v with
    | Boolean b => cases b <;> simp [is_truthy]
    | Integer i => simp [is_truthy]
    | Null => simp [is_truthy]
    | Return x => simp [is_truthy]
    | Error m => simp [is_truthy]
    | Function f => simp [is_truthy]
    | String s => simp [is_truthy]
  · intro htr
    simp only [eval_if_expr, heval, herr, htr]
    rfl
  · intro hfl
    simp only [eval_if_expr, heval, herr, hfl]
    rfl
  · intro hfl halt
    subst halt
    simp only [eval_if_expr, heval, herr, hfl]
    rfl

/-- C7 witness: a Boolean(false) condition with no alternative yields Null. -/
theorem C7_strict_truthiness_witness :
    eval_if_expr 2 (IfExpression.mk (tok .IF "if")
        (some (Expression.Boolean ⟨tok .FALSE "false", false⟩))
        (some (Statement.ExpressionStatement (.mk (tok .INT "1")
          (some (.IntegerLiteral ⟨tok .INT "1", 1⟩))))) none) Environment.new =
      Res.ok (Object.Null, Environment.new) := by
  exact (C7_strict_truthiness 1 (tok .IF "if") (Expression.Boolean ⟨tok .FALSE "false", false⟩)
    (some (Statement.ExpressionStatement (.mk (tok .INT "1")
      (some (.IntegerLiteral ⟨tok .INT "1", 1⟩))))) none
    Environment.new Environment.new (Object.Boolean false) (by rfl) (by rfl)).2.2.2 (by rfl) rfl

/-- C8: environment scoping. set returns the stored value, writes only the
    local store (the enclosing environment is untouched), and the new binding
    is exactly what get reads back for that name while every other name is
    unaffected; get prefers the local store, otherwise delegates to the
    enclosing chain, and is absent when no environment of the chain binds the
    name. -/
theorem C8_environment_scoping (store : List (Str × Object)) (outer : Option Environment)
    (n m : Str) (v : Object) :
    ((Environment.mk store outer).set n v).1 = v ∧
    (((Environment.mk store outer).set n v).2).outer = outer ∧
    ((Environment.mk store outer).set n v).2.get m =
      (if m = n then some v else (Environment.mk store outer).get m) ∧
    ((store_get store m).isSome → (Environment.mk store outer).get m = store_get store m) ∧
    (store_get store m = none →
      (Environment.mk store outer).get m =
        (match outer with | some p => p.get m | none => none)) ∧
    (bindsIn (Environment.mk store outer) n = false →
      (Environment.mk store outer).get n = none) := by
  refine ⟨rfl, rfl, ?_, ?_, ?_, ?_⟩
  · simp only [Environment.set]
    rw [Environment.get_mk, store_get_insert, Environment.get_mk]
    by_cases h : m = n
    · simp [h]
    · simp [h]
  · intro hs
    cases hsg : store_get store m with
    | some c => rw [Environment.get_mk, hsg]
    | none => rw [hsg] at hs; simp at hs
  · intro hs
    rw [Environment.get_mk, hs]
  · exact env_get_none_of_bindsIn_false _ n

/-- C8 witness: a name bound nowhere in the chain reads back as absent. -/
theorem C8_environment_scoping_witness :
    (Environment.mk [("x", Object.Integer 1)] none).get "q" = none := by
  exact (C8_environment_scoping [("x", Object.Integer 1)] none "q" "q"
    Object.Null).2.2.2.2.2 (by rfl)

/-- C9: integer division is the unguarded host i64 `/`: a zero right operand
    makes eval_integer_infix (and hence the evaluation of the infix expression
    `1 / 0`) panic — the model's division is not total, no Error object or
    other Object value is produced (first and last conjuncts). For in-range
    operands with a nonzero divisor, other than the pair i64::MIN / -1, the
    quotient truncates toward zero (second conjunct); at i64::MIN / -1 the
    host panics unconditionally, in every build profile (third conjunct). -/
theorem C9_division_by_zero_panics :
    (∀ x : Int, eval_integer_infix "/" (Object.Integer x) (Object.Integer 0) =
      Res.panic "attempt to divide by zero") ∧
    (∀ x y : Int, -(2 ^ 63) ≤ x → x < 2 ^ 63 → -(2 ^ 63) ≤ y → y < 2 ^ 63 →
      y ≠ 0 → ¬(x = -(2 ^ 63) ∧ y = -1) →
      eval_integer_infix "/" (Object.Integer x) (Object.Integer y) =
        Res.ok (Object.Integer (Int.tdiv x y))) ∧
    ( eval_integer_infix "/" (Object.Integer (-(2 ^ 63))) (Object.Integer (-1)) =
      Res.panic "attempt to divide with overflow") ∧
    (∀ env : Environment,
      eval_expr 3 (Expression.InfixExpression (InfixExpression.mk (Token.mk .SLASH "/")
        (some (.IntegerLiteral ⟨Token.mk .INT "1", 1⟩)) "/"
        (some (.IntegerLiteral ⟨Token.mk .INT "0", 0⟩)))) env =
      Res.panic "attempt to divide by zero") := by
  refine ⟨fun x => rfl, ?_, by rfl, fun env => rfl⟩
  intro x y _hx1 _hx2 _hy1 _hy2 hy0 hnov
  have hb : (-(2 ^ 63) : Int) = -9223372036854775808 := by norm_num
  rw [hb] at hnov
  have g1 : ((y == (0 : Int)) = false) := by simp [hy0]
  have g2 : (((x == (-9223372036854775808 : Int)) && (y == (-1 : Int))) = false) := by
    rcases not_and_or.mp hnov with h | h <;> simp [h]
  simp [ eval_integer_infix, g1, g2]

/-- C9 witness: the in-range division conjunct at the concrete pair 7 / 2. -/
theorem C9_division_by_zero_panics_witness :
    eval_integer_infix "/" (Object.Integer 7) (Object.Integer 2) =
      Res.ok (Object.Integer 3) := by
  exact C9_division_by_zero_panics.2.1 7 2 (by norm_num) (by norm_num) (by norm_num)
    (by norm_num) (by norm_num) (by norm_num)

/-- C10: each call argument is evaluated in a fresh clone of the caller's
    environment. First conjunct: whenever e₁ and e₂ each evaluate without
    error against the SAME environment env (whatever environments env₁, env₂
    those evaluations produce — in particular, whatever bindings evaluating e₁
    created), eval_exprs [e₁, e₂] yields exactly those two values: the second
    argument is evaluated against the original env, and the mutated clones are
    discarded. Second conjunct: a whole call expression whose argument executes
    `let z = 99` leaves the caller's (root) environment unchanged. -/
theorem C10_arguments_fresh_clone (f : Nat) (e₁ e₂ : Expression) (env : Environment)
    (o₁ o₂ : Object) (env₁ env₂ : Environment)
    (h₁ : eval_expr (f + 2) e₁ env = Res.ok (o₁, env₁)) (he₁ : is_error o₁ = false)
    (h₂ : eval_expr (f + 1) e₂ env = Res.ok (o₂, env₂)) (he₂ : is_error o₂ = false) :
    eval_exprs (f + 3) [e₁, e₂] env = Res.ok [o₁, o₂] ∧
    eval_expr 20 C10call Environment.new = Res.ok (Object.Null, Environment.new) := by
  constructor
  · simp only [eval_exprs, h₁, he₁, h₂, he₂]
    rfl
  · rfl

/-- C10 witness: with env binding only w ↦ 7, the first argument executes
    `let z = 99` (its evaluation ends in an environment that also binds z),
    yet the second argument still evaluates against the original environment
    and the result list is [Null, Integer 7]. -/
theorem C10_arguments_fresh_clone_witness :
    eval_exprs 13 [C10argLet, Expression.Identifier ⟨tok .IDENT "w", "w"⟩] C10env =
      Res.ok [Object.Null, Object.Integer 7] := by
  exact (C10_arguments_fresh_clone 10 C10argLet (Expression.Identifier ⟨tok .IDENT "w", "w"⟩)
    C10env Object.Null (Object.Integer 7)
    (Environment.mk [("w", Object.Integer 7), ("z", Object.Integer 99)] none) C10env
    (by rfl) (by rfl) (by rfl) (by rfl)).1
